import Mathlib

/-!
Verification of the voice-chat backend (quzao-backend): a shallow embedding of
the binary frame codec shared by the ASR and TTS services, the recognition
session state (sequence counter), the TTS response parser and synthesize drain
loop, the sentence segmenter, and the turn orchestrator's generating phase.
Bytes are modelled as `List Nat` (each element a byte value), text as
`List Char`, and 32-bit wire integers as mathematical integers with explicit
big-endian byte (de)composition modulo 2^32.
-/

namespace Quzao

/-- Big-endian interpretation of a byte list as an unsigned natural number
(models Python `int.from_bytes(l, "big", signed=False)`). -/
def beNat (l : List Nat) : Nat :=
  l.foldl (fun acc b => acc * 256 + b) 0

/-- Big-endian signed interpretation of a byte list using two's complement at
width `8 * l.length` (models Python `int.from_bytes(l, "big", signed=True)`). -/
def beIntSigned (l : List Nat) : Int :=
  let u := beNat l
  if 2 * u < 256 ^ l.length then (u : Int) else (u : Int) - (256 ^ l.length : Nat)

/-- Models Python `struct.pack _>i_ seq`: the 4 big-endian bytes of the
two's-complement 32-bit representation of `n`. -/
def int32ToBytesBE (n : Int) : List Nat :=
  let u := (n % (2 ^ 32 : Int)).toNat
  [u / 2 ^ 24 % 256, u / 2 ^ 16 % 256, u / 2 ^ 8 % 256, u % 256]

/-- Models Python `struct.pack _>I_ n` / `n.to_bytes(4, "big")`: the 4
big-endian bytes of `n % 2^32`. -/
def uint32ToBytesBE (n : Nat) : List Nat :=
  [n / 2 ^ 24 % 256, n / 2 ^ 16 % 256, n / 2 ^ 8 % 256, n % 256]

/-- Model of the external library call `gzip.compress`, abstracted to the
framing properties the code depends on: the output starts with the two gzip
magic bytes `0x1f 0x8b` and the original data is recoverable. The claims
never depend on the compressed representation itself, only on round-tripping
and on decompression failing for data that does not start with the magic. -/
def gzipCompress (data : List Nat) : List Nat :=
  0x1f :: 0x8b :: data

/-- Model of the external library call `gzip.decompress`; `none` models the
exception raised on input that does not carry the gzip magic bytes. -/
def gzipDecompress (data : List Nat) : Option (List Nat) :=
  if data.take 2 = [0x1f, 0x8b] then some (data.drop 2) else none

/-! ## Sentence segmenter (src/main.py, `find_nearest_punctuation`) -/

/-- The punctuation set of `find_nearest_punctuation` (src/main.py line 55). -/
def punctuations : List Char :=
  ['。', '！', '？', '；', '，', '.', '!', '?', ';', ',']

/-- Models the Python condition `i < len(text) and text[i] in punctuations`
(short-circuit: out-of-range index yields `false`). -/
def isPunctAt (text : List Char) (i : Nat) : Bool :=
  match text.get? i with
  | some c => punctuations.contains c
  | none => false

/-- Embedding of `find_nearest_punctuation(text, target_len=50)`
(src/main.py lines 53-71). Returns an `Int` because Python returns
`len(text) - 1`, which is `-1` on the empty string. The two Python scan
loops `range(target_len, search_end)` and
`range(target_len, search_start - 1, -1)` are modelled by `List.find?`
over the corresponding index lists. -/
def find_nearest_punctuation (text : List Char) (target_len : Nat := 50) : Int :=
  if text.length ≤ target_len then (text.length : Int) - 1
  else
    let search_start := max 0 (target_len - 20)
    let search_end := min text.length (target_len + 20)
    match (List.range' target_len (search_end - target_len)).find? (isPunctAt text) with
    | some i => (i : Int)
    | none =>
      match ((List.range' search_start (target_len + 1 - search_start)).reverse).find?
          (isPunctAt text) with
      | some i => (i : Int)
      | none => min (target_len : Int) ((text.length : Int) - 1)

/-! ## ASR client (src/asr_service.py) -/

/-- Embedding of `AsrRequestHeader` (src/asr_service.py lines 32-38). The
defaults are `CLIENT_FULL_REQUEST` (1), `POS_SEQUENCE` (1), JSON (1),
GZIP (1), reserved byte `0x00`. -/
structure AsrRequestHeader where
  message_type : Nat := 1
  message_type_specific_flags : Nat := 1
  serialization_type : Nat := 1
  compression_type : Nat := 1
  reserved_data : List Nat := [0x00]
  deriving Repr, DecidableEq

/-- Embedding of `AsrRequestHeader.to_bytes` (src/asr_service.py lines 48-54):
version/header-size byte, message-type/flags byte, serialization/compression
byte, then the reserved bytes. -/
def AsrRequestHeader.to_bytes (h : AsrRequestHeader) : List Nat :=
  [(1 <<< 4) ||| 1,
   (h.message_type <<< 4) ||| h.message_type_specific_flags,
   (h.serialization_type <<< 4) ||| h.compression_type] ++ h.reserved_data

/-- Embedding of `AsrClient._build_full_request` (src/asr_service.py lines
74-98), parameterized by the UTF-8 JSON bytes of the fixed configuration
payload (the `json.dumps` output of an external library; its exact bytes are
irrelevant to the claims). Default header: ClientFullRequest with the
positive-sequence flag. -/
def _build_full_request (seq : Int) (payload_bytes : List Nat) : List Nat :=
  let header : AsrRequestHeader := {}
  let compressed_payload := gzipCompress payload_bytes
  header.to_bytes ++ int32ToBytesBE seq
    ++ uint32ToBytesBE compressed_payload.length ++ compressed_payload

/-- Embedding of `AsrClient._build_audio_request` (src/asr_service.py lines
100-116): message type `CLIENT_AUDIO_ONLY_REQUEST` (2); when `is_last` the
flags are `NEG_WITH_SEQUENCE` (3) and the sequence is negated, otherwise
`POS_SEQUENCE` (1); then the 4-byte signed sequence, the 4-byte length of the
compressed audio, and the compressed audio. -/
def _build_audio_request (seqCounter : Int) (audio_data : List Nat)
    (is_last : Bool) : List Nat :=
  let seq := if is_last then -seqCounter else seqCounter
  let flags := if is_last then 3 else 1
  let header : AsrRequestHeader :=
    { message_type := 2, message_type_specific_flags := flags }
  let compressed_audio := gzipCompress audio_data
  header.to_bytes ++ int32ToBytesBE seq
    ++ uint32ToBytesBE compressed_audio.length ++ compressed_audio

/-- The mutable state of `AsrClient` relevant to the claims: the sequence
counter `self.seq`, initialized to 1 in `__init__` (src/asr_service.py
line 63). -/
structure AsrClientState where
  seq : Int
  deriving Repr, DecidableEq

/-- Initial client state: the constructor sets `self.seq = 1`. -/
def AsrClientState.init : AsrClientState := { seq := 1 }

/-- Embedding of the sequence-relevant effects of `AsrClient.connect`
(src/asr_service.py lines 161-174): build and send one full request carrying
the current sequence, then increment the counter. Returns the emitted frame
and the post-call state. (The consumed response frame does not affect the
counter.) -/
def connect (st : AsrClientState) (payload_bytes : List Nat) :
    List Nat × AsrClientState :=
  (_build_full_request st.seq payload_bytes, { st with seq := st.seq + 1 })

/-- Embedding of `AsrClient.send_audio` (src/asr_service.py lines 176-184):
on empty input, warn and return without sending or incrementing; otherwise
send one audio frame with the current (positive) sequence and increment the
counter. -/
def send_audio (st : AsrClientState) (audio_data : List Nat) :
    Option (List Nat) × AsrClientState :=
  if audio_data.length = 0 then (none, st)
  else (some (_build_audio_request st.seq audio_data false),
        { st with seq := st.seq + 1 })

/-- Embedding of `AsrClient.send_end` (src/asr_service.py lines 186-189):
send one audio frame with empty payload and `is_last = true`; the counter is
not modified. -/
def send_end (st : AsrClientState) : List Nat × AsrClientState :=
  (_build_audio_request st.seq [] true, st)

/-- The dictionary returned by `AsrClient._parse_response`
(src/asr_service.py lines 126-130). -/
structure AsrResult where
  code : Int
  is_last : Bool
  text : List Char
  deriving Repr, DecidableEq

/-- Embedding of `AsrClient._parse_response` (src/asr_service.py lines
118-159). `jsonDec` abstracts the external `json.loads` call together with
the two field reads `data.get("code", 20000000)` and
`data["result"].get("text", "")`; `none` models the exception path (also
taken when gzip decompression fails), which leaves the already-set `code`
and the empty `text` in place. -/
def asr_parse_response (jsonDec : List Nat → Option (Int × List Char))
    (msg : List Nat) : AsrResult :=
  let header_size := msg.getD 0 0 &&& 0x0f
  let message_type := msg.getD 1 0 >>> 4
  let message_type_specific_flags := msg.getD 1 0 &&& 0x0f
  let serialization_method := msg.getD 2 0 >>> 4
  let message_compression := msg.getD 2 0 &&& 0x0f
  let payload0 := msg.drop (header_size * 4)
  let payload1 := if message_type_specific_flags &&& 0x01 ≠ 0
    then payload0.drop 4 else payload0
  let is_last := message_type_specific_flags &&& 0x02 ≠ 0
  let payload2 := if message_type_specific_flags &&& 0x04 ≠ 0
    then payload1.drop 4 else payload1
  let codeAndPayload : Int × List Nat :=
    if message_type = 9 then (0, payload2.drop 4)
    else if message_type = 15 then (beIntSigned (payload2.take 4), payload2.drop 8)
    else (0, payload2)
  let code0 := codeAndPayload.1
  let payload3 := codeAndPayload.2
  if payload3 = [] then { code := code0, is_last := is_last, text := [] }
  else
    let decompressed := if message_compression = 1
      then gzipDecompress payload3 else some payload3
    match decompressed with
    | none => { code := code0, is_last := is_last, text := [] }
    | some pl =>
      if serialization_method = 1 then
        match jsonDec pl with
        | none => { code := code0, is_last := is_last, text := [] }
        | some ct => { code := ct.1, is_last := is_last, text := ct.2 }
      else { code := code0, is_last := is_last, text := [] }

/-- One inbound websocket message as seen by the ASR receive loop: a binary
frame (carrying its bytes), an ERROR/CLOSED message, or any other type. -/
inductive WsMsg where
  | binary (data : List Nat)
  | errorOrClosed
  | other
  deriving Repr, DecidableEq

/-- Embedding of `AsrClient.receive_results` (src/asr_service.py lines
191-208): for each binary message, parse it, yield its text when non-empty,
and stop after a frame flagged `is_last`; an ERROR/CLOSED message stops the
loop; other message types are skipped. Returns the list of yielded texts. -/
def receive_results (jsonDec : List Nat → Option (Int × List Char)) :
    List WsMsg → List (List Char)
  | [] => []
  | WsMsg.binary data :: rest =>
    let result := asr_parse_response jsonDec data
    (if result.text ≠ [] then [result.text] else []) ++
      (if result.is_last then [] else receive_results jsonDec rest)
  | WsMsg.errorOrClosed :: _ => []
  | WsMsg.other :: rest => receive_results jsonDec rest

/-! ## TTS client (src/tts_service.py) -/

/-- Embedding of `TTSClient._parse_response` (src/tts_service.py lines
52-79). `none` models an uncaught Python exception: in the error branch
(`0xf`) the payload after the 8 skipped bytes is gzip-decompressed when the
compression nibble is 1 and then UTF-8 decoded for the log line, both
OUTSIDE any try/except, so a failure of either (e.g. `EOFError` from
`gzip.decompress(b"")`) propagates to the caller. `utf8Dec` abstracts the
external `bytes.decode("utf-8")` call; its `none` models
`UnicodeDecodeError`. Otherwise the result is `some (audio_data?, is_done)`:
for an audio-chunk frame (message type `0xb`) with non-zero flags, the audio
is the payload after the 4-byte sequence and 4-byte declared size, and
`is_done` is the sign bit of the sequence; with zero flags,
`some (none, false)`. A successfully decoded-and-logged error frame gives
`some (none, true)`; a frontend-event frame (`0xc`) and anything else give
`some (none, false)`. The declared size is read but only compared for a
logged warning; it never affects the returned audio. -/
def tts_parse_response (utf8Dec : List Nat → Option (List Char))
    (res : List Nat) : Option (Option (List Nat) × Bool) :=
  let header_size := res.getD 0 0 &&& 0x0f
  let message_type := res.getD 1 0 >>> 4
  let message_type_specific_flags := res.getD 1 0 &&& 0x0f
  let message_compression := res.getD 2 0 &&& 0x0f
  let payload := res.drop (header_size * 4)
  if message_type = 0xb then
    if message_type_specific_flags = 0 then some (none, false)
    else
      let sequence_number := beIntSigned (payload.take 4)
      let payload_size := beNat ((payload.drop 4).take 4)
      let audio_data := payload.drop 8
      some (some audio_data, sequence_number < 0)
  else if message_type = 0xf then
    let error_msg := payload.drop 8
    let decompressed := if message_compression = 1 then gzipDecompress error_msg
      else some error_msg
    match decompressed.bind utf8Dec with
    | none => none
    | some _ => some (none, true)
  else if message_type = 0xc then some (none, false)
  else some (none, false)

/-- One inbound websocket message as seen by the TTS synthesize loop. -/
inductive TtsWsMsg where
  | binary (data : List Nat)
  | errorOrClosed
  deriving Repr, DecidableEq

/-- Embedding of the receive loop of `TTSClient.synthesize`
(src/tts_service.py lines 92-100): parse each binary message, yield the
audio when present and non-empty (Python truthiness of `audio_data`), stop
when `is_done`; an ERROR/CLOSED websocket message stops the loop. Returns
the yielded audio chunks paired with a flag that is `true` when an uncaught
exception from `_parse_response` escaped the loop (the iteration aborts
without a clean stop, after the earlier chunks were already yielded). -/
def synthesize_drain (utf8Dec : List Nat → Option (List Char)) :
    List TtsWsMsg → List (List Nat) × Bool
  | [] => ([], false)
  | TtsWsMsg.binary data :: rest =>
    match tts_parse_response utf8Dec data with
    | none => ([], true)
    | some pr =>
      let yields := match pr.1 with
        | some a => if a ≠ [] then [a] else []
        | none => []
      if pr.2 then (yields, false)
      else
        let next := synthesize_drain utf8Dec rest
        (yields ++ next.1, next.2)
  | TtsWsMsg.errorOrClosed :: _ => ([], false)

/-! ## Turn orchestrator (src/main.py, `websocket_voice_chat`) -/

/-- The observable actions of one turn of `websocket_voice_chat`
(src/main.py lines 255-342): outbound client messages (`asr`, `llm`, the
bare `over` completion marker), the `generate_stream` invocation, the
`synthesize` invocations (via `synthesize_and_send`), and the creation of a
fresh `AsrClient` at the end of the turn. -/
inductive TurnEvent where
  | asrMsg (data : List Char)
  | llmMsg (data : List Char)
  | generateCall (prompt : List Char)
  | synthesizeCall (sentence : List Char)
  | overMsg
  | newSession
  deriving Repr, DecidableEq

/-- Embedding of the generation loop body (src/main.py lines 311-326): for
each delta, append it to `llm_buffer`, relay `{type:"llm", data:llm_buffer}`,
and when the buffer exceeds 100 characters cut one sentence at
`find_nearest_punctuation(llm_buffer, 50)` and synthesize it, keeping the
remainder as the new buffer. Returns the emitted events and the final
buffer. -/
def processDeltas : List Char → List (List Char) → List TurnEvent × List Char
  | buffer, [] => ([], buffer)
  | buffer, d :: rest =>
    let llm_buffer := buffer ++ d
    if 100 < llm_buffer.length then
      let cut_pos := find_nearest_punctuation llm_buffer 50
      let sentence := llm_buffer.take (cut_pos + 1).toNat
      let remainder := llm_buffer.drop (cut_pos + 1).toNat
      let next := processDeltas remainder rest
      (TurnEvent.llmMsg llm_buffer :: TurnEvent.synthesizeCall sentence :: next.1,
       next.2)
    else
      let next := processDeltas llm_buffer rest
      (TurnEvent.llmMsg llm_buffer :: next.1, next.2)

/-- Embedding of the whole Generating+Synthesizing phase (src/main.py lines
311-330): process the delta stream starting from an empty buffer, then flush
the remaining buffer through one final synthesize call when non-empty. -/
def generatePhase (deltas : List (List Char)) : List TurnEvent :=
  let r := processDeltas [] deltas
  r.1 ++ (if r.2 = [] then [] else [TurnEvent.synthesizeCall r.2])

/-- Embedding of the end-of-turn handler (src/main.py lines 255-342), given
the inbound ASR websocket messages and the generation deltas: drain
`receive_results` keeping the last yielded text (starting from the empty
`asr_result`), relay `{type:"asr", ...}`, and either short-circuit on an
empty transcript (send `over`, fresh session) or run generation, the
pipelined synthesis, `over`, and a fresh session. -/
def handleEnd (jsonDec : List Nat → Option (Int × List Char))
    (msgs : List WsMsg) (deltas : List (List Char)) : List TurnEvent :=
  let asr_result := (receive_results jsonDec msgs).foldl (fun _ t => t) []
  TurnEvent.asrMsg asr_result ::
    (if asr_result = [] then [TurnEvent.overMsg, TurnEvent.newSession]
     else TurnEvent.generateCall asr_result ::
       (generatePhase deltas ++ [TurnEvent.overMsg, TurnEvent.newSession]))

/-- The data fields of the `{type:"llm", ...}` messages in a list of events. -/
def llmDatas (evs : List TurnEvent) : List (List Char) :=
  evs.filterMap fun e =>
    match e with
    | TurnEvent.llmMsg d => some d
    | _ => none

/-- The sentence arguments of the synthesize calls in a list of events. -/
def synthTexts (evs : List TurnEvent) : List (List Char) :=
  evs.filterMap fun e =>
    match e with
    | TurnEvent.synthesizeCall s => some s
    | _ => none

/-- A concrete 130-character delta with its only punctuation mark at index
52 (52 letters, one full-width period, 77 letters), used to instantiate the
mid-stream cut scenario. -/
def exampleDelta : List Char :=
  List.replicate 52 'a' ++ '。' :: List.replicate 77 'a'

theorem find_nearest_punctuation_lower (text : List Char) (target_len : Nat) :
    (0 : Int) ≤ find_nearest_punctuation text target_len ∨ text = [] := by
  by_cases hnil : text = []
  · exact Or.inr hnil
  · left
    have hpos : 0 < text.length := List.length_pos.mpr hnil
    unfold find_nearest_punctuation
    split
    · omega
    · dsimp only
      split
      · omega
      · split
        · omega
        · omega

theorem find_nearest_punctuation_upper (text : List Char) (target_len : Nat)
    (h : target_len < text.length) :
    find_nearest_punctuation text target_len < (text.length : Int) := by
  unfold find_nearest_punctuation
  split
  · omega
  · next hle =>
    dsimp only
    split
    · next i hfind =>
      have hmem := List.mem_of_find?_eq_some hfind
      have := List.mem_range'_1.mp hmem
      have : i < min text.length (target_len + 20) := by omega
      have : i < text.length := by omega
      exact_mod_cast this
    · split
      · next i hfind =>
        have hmem := List.mem_of_find?_eq_some hfind
        rw [List.mem_reverse] at hmem
        have := List.mem_range'_1.mp hmem
        have : i < text.length := by omega
        exact_mod_cast this
      · omega

/-- C7: For every buffer `buf` and every target length `t ≥ 0` with
`len(buf) > t`, `find_nearest_punctuation buf t` returns an index `i` with
`0 ≤ i < len(buf)`. The purity/determinism part of the claim holds by
construction: the embedding is a plain function of `(buf, t)` with no other
state. -/
theorem segmenter_bounds (buf : List Char) (t : Nat) (h : t < buf.length) :
    0 ≤ find_nearest_punctuation buf t ∧
      find_nearest_punctuation buf t < (buf.length : Int) := by
  refine ⟨?_, find_nearest_punctuation_upper buf t h⟩
  rcases find_nearest_punctuation_lower buf t with h0 | hnil
  · exact h0
  · subst hnil; simp at h

/-- Witness for `segmenter_bounds` at a concrete buffer of length 3 and
target length 1. -/
theorem segmenter_bounds_witness :
    1 < (['a', 'b', 'c'] : List Char).length ∧
      (0 ≤ find_nearest_punctuation ['a', 'b', 'c'] 1 ∧
        find_nearest_punctuation ['a', 'b', 'c'] 1 < ((['a', 'b', 'c'] : List Char).length : Int)) :=
  ⟨by decide, segmenter_bounds ['a', 'b', 'c'] 1 (by decide)⟩

/-- C10: For every target length `t ≥ 0`, the segmenter on a buffer with
`len(buf) ≤ t` returns `len(buf) - 1` (so `-1` on the empty buffer), and the
returned index is negative exactly when the buffer is empty. -/
theorem segmenter_small_buffer (buf : List Char) (t : Nat) :
    (buf.length ≤ t → find_nearest_punctuation buf t = (buf.length : Int) - 1) ∧
      (find_nearest_punctuation buf t < 0 ↔ buf = []) := by
  constructor
  · intro hle
    unfold find_nearest_punctuation
    simp [hle]
  · constructor
    · intro hneg
      rcases find_nearest_punctuation_lower buf t with h0 | hnil
      · omega
      · exact hnil
    · intro hnil
      subst hnil
      unfold find_nearest_punctuation
      simp

/-- Witness for `segmenter_small_buffer` at the empty buffer and target
length 5: the segmenter returns `-1` there. -/
theorem segmenter_small_buffer_witness :
    find_nearest_punctuation [] 5 = -1 ∧
      (find_nearest_punctuation [] 5 < 0 ↔ ([] : List Char) = []) := by
  refine ⟨?_, (segmenter_small_buffer [] 5).2⟩
  have := (segmenter_small_buffer [] 5).1 (by decide)
  simpa using this

theorem processDeltas_head (buffer d : List Char) (rest : List (List Char)) :
    ((processDeltas buffer (d :: rest)).1).head? = some (TurnEvent.llmMsg (buffer ++ d)) := by
  unfold processDeltas
  dsimp only
  split <;> rfl

theorem llmDatas_cons_llm (d : List Char) (l : List TurnEvent) :
    llmDatas (TurnEvent.llmMsg d :: l) = d :: llmDatas l := rfl

theorem llmDatas_cons_synth (s : List Char) (l : List TurnEvent) :
    llmDatas (TurnEvent.synthesizeCall s :: l) = llmDatas l := rfl

theorem synthTexts_cons_llm (d : List Char) (l : List TurnEvent) :
    synthTexts (TurnEvent.llmMsg d :: l) = synthTexts l := rfl

theorem synthTexts_cons_synth (s : List Char) (l : List TurnEvent) :
    synthTexts (TurnEvent.synthesizeCall s :: l) = s :: synthTexts l := rfl

theorem llmDatas_processDeltas_length (deltas : List (List Char)) :
    ∀ buffer : List Char,
      (llmDatas (processDeltas buffer deltas).1).length = deltas.length := by
  induction deltas with
  | nil => intro buffer; rfl
  | cons d rest ih =>
    intro buffer
    unfold processDeltas
    dsimp only
    split
    · rw [llmDatas_cons_llm, llmDatas_cons_synth, List.length_cons, ih, List.length_cons]
    · rw [llmDatas_cons_llm, List.length_cons, ih, List.length_cons]

theorem synthTexts_processDeltas_flatten (deltas : List (List Char)) :
    ∀ buffer : List Char,
      (synthTexts (processDeltas buffer deltas).1).flatten ++ (processDeltas buffer deltas).2
        = buffer ++ deltas.flatten := by
  induction deltas with
  | nil => intro buffer; simp [processDeltas, synthTexts]
  | cons d rest ih =>
    intro buffer
    unfold processDeltas
    dsimp only
    split
    · rw [synthTexts_cons_llm, synthTexts_cons_synth, List.flatten_cons, List.append_assoc,
        ih, ← List.append_assoc, List.take_append_drop, List.flatten_cons,
        ← List.append_assoc]
    · rw [synthTexts_cons_llm, ih, List.flatten_cons, ← List.append_assoc]

/-- C1 counterexample: with two deltas, the first of 101 characters (no
punctuation, so the mid-stream cut removes the first 51 characters) and the
second a single character, the second relayed `{type:"llm", ...}` message
carries the truncated running buffer plus the delta, not the cumulative text
of the whole turn: the code keeps a single buffer, and the cut removes the
synthesized sentence from it. -/
theorem live_display_counterexample :
    llmDatas (generatePhase [List.replicate 101 'a', ['b']])
      ≠ [List.replicate 101 'a', List.replicate 101 'a' ++ ['b']] := by
  decide

/-- C1 (amended): for every incremental delta the orchestrator immediately
relays exactly one `{type:"llm", data:...}` message (one per delta), whose
data is the current running buffer with the delta appended; this equals the
cumulative text of the whole turn only until the first mid-stream cut, since
each cut removes the synthesized sentence from the single buffer. No text is
lost: the synthesized sentences together with the final buffer reconstruct
the concatenation of all deltas. -/
theorem live_display_relay :
    (∀ (buffer d : List Char) (rest : List (List Char)),
      ((processDeltas buffer (d :: rest)).1).head?
        = some (TurnEvent.llmMsg (buffer ++ d)))
    ∧ (∀ (buffer : List Char) (deltas : List (List Char)),
      (llmDatas (processDeltas buffer deltas).1).length = deltas.length)
    ∧ (∀ (deltas : List (List Char)),
      (synthTexts (processDeltas [] deltas).1).flatten
        ++ (processDeltas [] deltas).2 = deltas.flatten) :=
  ⟨processDeltas_head,
   fun buffer deltas => llmDatas_processDeltas_length deltas buffer,
   fun deltas => by simpa using synthTexts_processDeltas_flatten deltas []⟩

/-- C4: if the generation stream yields a single delta of 130 characters
whose first punctuation mark at or after index 50 sits at index 52, the
orchestrator performs exactly one synthesize call while consuming the stream
(the >100-character threshold fires, and the forward punctuation scan from
the target length 50 lands on index 52, cutting the first 53 characters) and
exactly one further synthesize call for the 77-character remainder after the
stream ends. -/
theorem mid_stream_cut (d : List Char) (hlen : d.length = 130)
    (h50 : isPunctAt d 50 = false) (h51 : isPunctAt d 51 = false)
    (h52 : isPunctAt d 52 = true) :
    generatePhase [d]
      = [TurnEvent.llmMsg d, TurnEvent.synthesizeCall (d.take 53),
         TurnEvent.synthesizeCall (d.drop 53)]
      ∧ (d.take 53).length = 53 ∧ (d.drop 53).length = 77 := by
  have hcut : find_nearest_punctuation d 50 = 52 := by
    unfold find_nearest_punctuation
    rw [if_neg (by omega)]
    dsimp only
    rw [hlen]
    have he : min 130 (50 + 20) - 50 = 20 := by norm_num
    rw [he]
    have hr : List.range' 50 20 = 50 :: 51 :: 52 :: List.range' 53 17 := rfl
    rw [hr, List.find?_cons_of_neg _ (by simp [h50]),
      List.find?_cons_of_neg _ (by simp [h51]),
      List.find?_cons_of_pos _ h52]
    rfl
  have hdrop : (d.drop 53).length = 77 := by
    rw [List.length_drop, hlen]
  have htake : (d.take 53).length = 53 := by
    rw [List.length_take, hlen]; omega
  refine ⟨?_, htake, hdrop⟩
  unfold generatePhase processDeltas
  dsimp only
  rw [List.nil_append, if_pos (by omega : 100 < d.length), hcut]
  have htn : ((52 : Int) + 1).toNat = 53 := by decide
  rw [htn]
  unfold processDeltas
  dsimp only
  rw [if_neg (by intro hnil; rw [hnil] at hdrop; simp at hdrop)]
  rfl

set_option maxRecDepth 40000 in
/-- Witness for `mid_stream_cut` at the concrete delta `exampleDelta`
(52 letters, `。`, 77 letters). -/
theorem mid_stream_cut_witness :
    exampleDelta.length = 130 ∧ isPunctAt exampleDelta 52 = true ∧
      (generatePhase [exampleDelta]
        = [TurnEvent.llmMsg exampleDelta,
           TurnEvent.synthesizeCall (exampleDelta.take 53),
           TurnEvent.synthesizeCall (exampleDelta.drop 53)]
        ∧ (exampleDelta.take 53).length = 53 ∧ (exampleDelta.drop 53).length = 77) :=
  ⟨by decide, by decide,
   mid_stream_cut exampleDelta (by decide) (by decide) (by decide) (by decide)⟩

/-- C5: if draining `receive_results` yields no (non-empty) transcript text,
the turn handler relays the (empty) ASR result, the bare `over` completion
marker, and a fresh recognition session, and performs no `generate` and no
`synthesize` call: the produced event list is exactly
`[asrMsg "", overMsg, newSession]`. -/
theorem empty_transcript_short_circuit
    (jsonDec : List Nat → Option (Int × List Char))
    (msgs : List WsMsg) (deltas : List (List Char))
    (h : receive_results jsonDec msgs = []) :
    handleEnd jsonDec msgs deltas
      = [TurnEvent.asrMsg [], TurnEvent.overMsg, TurnEvent.newSession] := by
  unfold handleEnd
  rw [h]
  rfl

/-- Witness for `empty_transcript_short_circuit`: one binary ASR response
frame with the `is_last` flag and no payload (so no text is yielded), and a
non-empty pending delta list that must not be consumed. -/
theorem empty_transcript_short_circuit_witness :
    receive_results (fun _ => none) [WsMsg.binary [0x11, 0x92, 0x11, 0x00]] = []
    ∧ handleEnd (fun _ => none) [WsMsg.binary [0x11, 0x92, 0x11, 0x00]] [['x']]
      = [TurnEvent.asrMsg [], TurnEvent.overMsg, TurnEvent.newSession] :=
  ⟨rfl, empty_transcript_short_circuit (fun _ => none)
    [WsMsg.binary [0x11, 0x92, 0x11, 0x00]] [['x']] rfl⟩

theorem beNat_four (a b c d : Nat) :
    beNat [a, b, c, d] = ((a * 256 + b) * 256 + c) * 256 + d := by
  simp [beNat, List.foldl]

theorem beIntSigned_int32ToBytesBE (z : Int) (h1 : -(2 ^ 31) ≤ z) (h2 : z < 2 ^ 31) :
    beIntSigned (int32ToBytesBE z) = z := by
  have hmod : 0 ≤ z % (2 ^ 32 : Int) := Int.emod_nonneg z (by norm_num)
  have hlt : z % (2 ^ 32 : Int) < 2 ^ 32 := Int.emod_lt_of_pos z (by norm_num)
  unfold beIntSigned int32ToBytesBE
  dsimp only
  have hcast : (((z % (2 ^ 32 : Int)).toNat : Int)) = z % (2 ^ 32 : Int) :=
    Int.toNat_of_nonneg hmod
  set u := (z % (2 ^ 32 : Int)).toNat with hu
  have hult : u < 2 ^ 32 := by omega
  rw [beNat_four]
  have hrecomp : ((u / 2 ^ 24 % 256 * 256 + u / 2 ^ 16 % 256) * 256 + u / 2 ^ 8 % 256) * 256
      + u % 256 = u := by omega
  rw [hrecomp]
  simp only [List.length_cons, List.length_nil]
  norm_num
  have hz : z % (2 ^ 32 : Int) = if 0 ≤ z then z else z + 2 ^ 32 := by
    split <;> omega
  split <;> omega

/-- C3 counterexample: `send_audio` on the empty byte string emits no frame
and leaves the sequence counter unchanged (the Python code returns early
with a warning), contradicting "for every input byte string, regardless of
its size, sendAudio emits a frame ... and increments the session's sequence
counter by exactly 1". -/
theorem sequence_sign_counterexample :
    (send_audio { seq := 5 } []).1 = none ∧ (send_audio { seq := 5 } []).2.seq = 5 :=
  ⟨rfl, rfl⟩

/-- C3 (amended): `send_end` emits exactly one frame whose 4-byte signed
big-endian sequence field equals the negation of the pre-call counter and
leaves the counter unchanged; `send_audio` on every NON-EMPTY input emits a
frame carrying the positive current sequence and increments the counter by
exactly 1; on the empty input it emits no frame and leaves the counter
unchanged. -/
theorem sequence_sign_invariant (st : AsrClientState) (audio : List Nat)
    (hpos : 0 < st.seq) (hlt : st.seq < 2 ^ 31) (hne : audio ≠ []) :
    (((send_end st).1.drop 4).take 4 = int32ToBytesBE (-st.seq)
      ∧ beIntSigned (((send_end st).1.drop 4).take 4) = -st.seq
      ∧ (send_end st).2 = st)
    ∧ (send_audio st audio
        = (some (_build_audio_request st.seq audio false), { seq := st.seq + 1 })
      ∧ ((_build_audio_request st.seq audio false).drop 4).take 4
          = int32ToBytesBE st.seq
      ∧ beIntSigned (((_build_audio_request st.seq audio false).drop 4).take 4)
          = st.seq)
    ∧ send_audio st [] = (none, st) := by
  have hseqbytes : ∀ (z : Int) (il : Bool) (a : List Nat),
      ((_build_audio_request z a il).drop 4).take 4
        = int32ToBytesBE (if il then -z else z) := by
    intro z il a
    cases il <;> rfl
  refine ⟨⟨?_, ?_, rfl⟩, ⟨?_, ?_, ?_⟩, ?_⟩
  · exact hseqbytes st.seq true []
  · rw [show (send_end st).1 = _build_audio_request st.seq [] true from rfl,
      hseqbytes st.seq true []]
    exact beIntSigned_int32ToBytesBE (-st.seq) (by omega) (by omega)
  · unfold send_audio
    rw [if_neg (by simpa [List.length_eq_zero] using hne)]
  · simpa using hseqbytes st.seq false audio
  · rw [show ((_build_audio_request st.seq audio false).drop 4).take 4
        = int32ToBytesBE st.seq by simpa using hseqbytes st.seq false audio]
    exact beIntSigned_int32ToBytesBE st.seq (by omega) (by omega)
  · rfl

/-- Witness for `sequence_sign_invariant` at counter 5 and the one-byte
audio payload `[1]`. -/
theorem sequence_sign_invariant_witness :
    (0 : Int) < 5 ∧ ([1] : List Nat) ≠ [] ∧
      ((((send_end { seq := 5 }).1.drop 4).take 4 = int32ToBytesBE (-5)
        ∧ beIntSigned (((send_end { seq := 5 }).1.drop 4).take 4) = -5
        ∧ (send_end { seq := 5 }).2 = { seq := 5 })
      ∧ (send_audio { seq := 5 } [1]
          = (some (_build_audio_request 5 [1] false), { seq := 5 + 1 })
        ∧ ((_build_audio_request 5 [1] false).drop 4).take 4 = int32ToBytesBE 5
        ∧ beIntSigned (((_build_audio_request 5 [1] false).drop 4).take 4) = 5)
      ∧ send_audio { seq := 5 } [] = (none, { seq := 5 })) :=
  ⟨by norm_num, by decide,
   sequence_sign_invariant { seq := 5 } [1] (by norm_num) (by norm_num) (by decide)⟩

/-- C8 counterexample: on return from `connect` the sequence counter is 2,
not 1 (the code sends the full request carrying sequence 1 and then
increments), so the first subsequent `send_audio` emits sequence 2. -/
theorem connect_sequence_counterexample :
    (connect AsrClientState.init []).2.seq = 2 ∧ (2 : Int) ≠ 1 :=
  ⟨rfl, by norm_num⟩

/-- C8 (amended): `connect` sends exactly one ClientFullRequest frame
(message-type nibble 1) with the positive-sequence flag (flags nibble 1)
carrying sequence number 1 (the pre-call counter), and on return the
session's counter equals 2, so the first subsequent `send_audio` emits
sequence number 2 and increments the counter to 3; the counter increases
monotonically per audio frame thereafter. -/
theorem connect_sequence (p audio : List Nat) (hne : audio ≠ []) :
    ((connect AsrClientState.init p).1.getD 1 0) >>> 4 = 1
    ∧ ((connect AsrClientState.init p).1.getD 1 0) &&& 0x0f = 1
    ∧ ((connect AsrClientState.init p).1.drop 4).take 4 = int32ToBytesBE 1
    ∧ (connect AsrClientState.init p).2.seq = 2
    ∧ send_audio (connect AsrClientState.init p).2 audio
        = (some (_build_audio_request 2 audio false), { seq := 3 })
    ∧ ((_build_audio_request 2 audio false).drop 4).take 4 = int32ToBytesBE 2 := by
  refine ⟨?_, ?_, rfl, rfl, ?_, rfl⟩
  · rw [show (connect AsrClientState.init p).1.getD 1 0 = (1 <<< 4) ||| 1 from rfl]
    decide
  · rw [show (connect AsrClientState.init p).1.getD 1 0 = (1 <<< 4) ||| 1 from rfl]
    decide
  unfold send_audio
  rw [if_neg (by simpa [List.length_eq_zero] using hne)]
  rfl

/-- Witness for `connect_sequence` with an empty modelled configuration
payload and the one-byte audio payload `[1]`. -/
theorem connect_sequence_witness :
    ([1] : List Nat) ≠ [] ∧
      (((connect AsrClientState.init []).1.getD 1 0) >>> 4 = 1
      ∧ ((connect AsrClientState.init []).1.getD 1 0) &&& 0x0f = 1
      ∧ ((connect AsrClientState.init []).1.drop 4).take 4 = int32ToBytesBE 1
      ∧ (connect AsrClientState.init []).2.seq = 2
      ∧ send_audio (connect AsrClientState.init []).2 [1]
          = (some (_build_audio_request 2 [1] false), { seq := 3 })
      ∧ ((_build_audio_request 2 [1] false).drop 4).take 4 = int32ToBytesBE 2) :=
  ⟨by decide, connect_sequence [] [1] (by decide)⟩

/-- C2 counterexample: the decoder does not recover the payload of a frame
produced by the encoder. For the concrete audio frame built from sequence 1
and payload `[65]`, even under a JSON decoder that would map any decoded
bytes to text, `_parse_response` returns empty text: for the client message
type (2) it does not strip the 4-byte payload-size field (it only does so
for server types 9 and 15), so gzip decompression is attempted on
size-prefixed bytes and fails. Hence `decode(encode(frame)) == frame` fails
on the payload component. -/
theorem frame_roundtrip_counterexample :
    (asr_parse_response (fun bs => some (20000000, bs.map Char.ofNat))
        (_build_audio_request 1 [65] false)).text = []
    ∧ ([65] : List Nat).map Char.ofNat ≠ [] := by
  constructor
  · rfl
  · decide

/-- C2 (amended): for every frame built by `_build_audio_request`, decoding
the encoded bytes recovers the message type (nibble 2), the type flags
(hence sequence presence) and the end-of-stream flag, but not the payload:
because the decoder strips the 4-byte size field only for server message
types, gzip decompression fails on the size-prefixed client payload and the
decoded text is always empty. (`hsmall` bounds the compressed payload below
2^24 bytes so that the first size byte, 0, differs from the gzip magic.) -/
theorem frame_roundtrip_header_only
    (jsonDec : List Nat → Option (Int × List Char))
    (seqC : Int) (audio : List Nat) (is_last : Bool)
    (hsmall : (gzipCompress audio).length < 2 ^ 24) :
    ((_build_audio_request seqC audio is_last).getD 1 0) >>> 4 = 2
    ∧ ((_build_audio_request seqC audio is_last).getD 1 0) &&& 0x0f
        = (if is_last then 3 else 1)
    ∧ (asr_parse_response jsonDec (_build_audio_request seqC audio is_last)).is_last
        = is_last
    ∧ (asr_parse_response jsonDec (_build_audio_request seqC audio is_last)).text
        = [] := by
  have h0 : (audio.length + 1 + 1) / 16777216 = 0 := by
    simp [gzipCompress] at hsmall; omega
  have hB : (17 : Nat) &&& 15 = 1 := by decide
  cases is_last
  · have hframe : _build_audio_request seqC audio false
        = 17 :: 33 :: 17 :: 0 :: (int32ToBytesBE seqC
          ++ (uint32ToBytesBE (gzipCompress audio).length ++ gzipCompress audio)) := by
      rfl
    have hA : (33 : Nat) &&& 15 &&& 4 = 0 := by decide
    have hC : (33 : Nat) &&& 15 &&& 2 = 0 := by decide
    have hD : (33 : Nat) &&& 15 &&& 1 = 1 := by decide
    rw [hframe]
    refine ⟨by simp [List.getD], by simp [List.getD]; decide, ?_, ?_⟩ <;>
      simp [asr_parse_response, int32ToBytesBE, uint32ToBytesBE, gzipDecompress,
        gzipCompress, h0, hA, hB, hC, hD]
  · have hframe : _build_audio_request seqC audio true
        = 17 :: 35 :: 17 :: 0 :: (int32ToBytesBE (-seqC)
          ++ (uint32ToBytesBE (gzipCompress audio).length ++ gzipCompress audio)) := by
      rfl
    have hA : (35 : Nat) &&& 15 &&& 4 = 0 := by decide
    have hC : (35 : Nat) &&& 15 &&& 2 = 2 := by decide
    have hD : (35 : Nat) &&& 15 &&& 1 = 1 := by decide
    rw [hframe]
    refine ⟨by simp [List.getD], by simp [List.getD]; decide, ?_, ?_⟩ <;>
      simp [asr_parse_response, int32ToBytesBE, uint32ToBytesBE, gzipDecompress,
        gzipCompress, h0, hA, hB, hC, hD]

/-- Witness for `frame_roundtrip_header_only` at sequence 1, payload `[65]`,
`is_last = false`, under a JSON decoder that maps decoded bytes to text. -/
theorem frame_roundtrip_header_only_witness :
    (gzipCompress [65]).length < 2 ^ 24 ∧
      (((_build_audio_request 1 [65] false).getD 1 0) >>> 4 = 2
      ∧ ((_build_audio_request 1 [65] false).getD 1 0) &&& 0x0f
          = (if false then 3 else 1)
      ∧ (asr_parse_response (fun bs => some (20000000, bs.map Char.ofNat))
          (_build_audio_request 1 [65] false)).is_last = false
      ∧ (asr_parse_response (fun bs => some (20000000, bs.map Char.ofNat))
          (_build_audio_request 1 [65] false)).text = []) :=
  ⟨by decide, frame_roundtrip_header_only (fun bs => some (20000000, bs.map Char.ofNat))
    1 [65] false (by decide)⟩

theorem tts_parse_audio_chunk (utf8Dec : List Nat → Option (List Char))
    (res seq4 size4 audio : List Nat)
    (hmt : res.getD 1 0 >>> 4 = 0xb)
    (hfl : res.getD 1 0 &&& 0x0f ≠ 0)
    (hpl : res.drop ((res.getD 0 0 &&& 0x0f) * 4) = seq4 ++ (size4 ++ audio))
    (hs4 : seq4.length = 4) (hz4 : size4.length = 4) :
    tts_parse_response utf8Dec res
      = some (some audio, decide (beIntSigned seq4 < 0)) := by
  unfold tts_parse_response
  dsimp only
  rw [hmt, if_pos rfl, if_neg hfl, hpl, List.take_left' hs4,
    ← List.append_assoc, List.drop_left' (by rw [List.length_append, hs4, hz4])]

theorem tts_parse_error_frame (utf8Dec : List Nat → Option (List Char))
    (res : List Nat) (hmt : res.getD 1 0 >>> 4 = 0xf) :
    tts_parse_response utf8Dec res
      = match ((if res.getD 2 0 &&& 0x0f = 1
            then gzipDecompress ((res.drop ((res.getD 0 0 &&& 0x0f) * 4)).drop 8)
            else some ((res.drop ((res.getD 0 0 &&& 0x0f) * 4)).drop 8)).bind utf8Dec) with
        | none => none
        | some _ => some (none, true) := by
  unfold tts_parse_response
  dsimp only
  rw [hmt, if_neg (by norm_num), if_pos rfl]

theorem synthesize_drain_cons_exn (utf8Dec : List Nat → Option (List Char))
    (data : List Nat) (rest : List TtsWsMsg)
    (h : tts_parse_response utf8Dec data = none) :
    synthesize_drain utf8Dec (TtsWsMsg.binary data :: rest) = ([], true) := by
  unfold synthesize_drain
  rw [h]

theorem synthesize_drain_cons_ok (utf8Dec : List Nat → Option (List Char))
    (data : List Nat) (rest : List TtsWsMsg) (pr : Option (List Nat) × Bool)
    (h : tts_parse_response utf8Dec data = some pr) :
    synthesize_drain utf8Dec (TtsWsMsg.binary data :: rest)
      = ((match pr.1 with
          | some a => if a ≠ [] then [a] else []
          | none => []) ++ (if pr.2 then [] else (synthesize_drain utf8Dec rest).1),
         if pr.2 then false else (synthesize_drain utf8Dec rest).2) := by
  have hstep : synthesize_drain utf8Dec (TtsWsMsg.binary data :: rest)
      = match tts_parse_response utf8Dec data with
        | none => ([], true)
        | some pr =>
          let yields := match pr.1 with
            | some a => if a ≠ [] then [a] else []
            | none => []
          if pr.2 then (yields, false)
          else (yields ++ (synthesize_drain utf8Dec rest).1,
                (synthesize_drain utf8Dec rest).2) := rfl
  rw [hstep, h]
  dsimp only
  cases hb : pr.2 <;> simp [hb]

/-- C6 counterexample: the claim "an error-type frame is decompressed,
logged, and stops the iteration" fails on the concrete error frame
`[0x11, 0xf0, 0x11, 0x00]` (compression nibble 1, empty payload): Python
runs `gzip.decompress(b"")` outside any try/except, which raises `EOFError`
— nothing is logged and the iteration aborts with an uncaught exception
instead of stopping cleanly. In the model (here under a UTF-8 decoder that
accepts everything, so the failure is attributable to gzip alone) the parse
result is `none` and the drain flags the escaped exception. -/
theorem tts_error_frame_counterexample :
    tts_parse_response (fun bs => some (bs.map Char.ofNat))
        [0x11, 0xf0, 0x11, 0x00] = none
    ∧ synthesize_drain (fun bs => some (bs.map Char.ofNat))
        [TtsWsMsg.binary [0x11, 0xf0, 0x11, 0x00]] = ([], true) :=
  ⟨rfl, rfl⟩

/-- C6 (amended): dispatch behavior of the TTS receive loop per inbound
frame. An audio-chunk frame (message-type nibble `0xb`) with non-zero flags
yields its audio bytes iff they are non-empty and stops the iteration iff
the signed 4-byte sequence is negative; an error frame (`0xf`) whose payload
(gzip-decompressed when the compression nibble is 1) UTF-8 decodes is logged
and stops the iteration cleanly, while one whose decompression or decode
fails raises an uncaught exception that aborts the iteration; a
frontend-event frame (`0xc`) yields nothing and continues; any other message
type yields nothing and continues. -/
theorem tts_frame_dispatch :
    (∀ (utf8Dec : List Nat → Option (List Char)) (res seq4 size4 audio : List Nat)
       (rest : List TtsWsMsg),
      res.getD 1 0 >>> 4 = 0xb → res.getD 1 0 &&& 0x0f ≠ 0 →
      res.drop ((res.getD 0 0 &&& 0x0f) * 4) = seq4 ++ (size4 ++ audio) →
      seq4.length = 4 → size4.length = 4 →
      tts_parse_response utf8Dec res = some (some audio, decide (beIntSigned seq4 < 0))
      ∧ synthesize_drain utf8Dec (TtsWsMsg.binary res :: rest)
          = ((if audio = [] then [] else [audio])
              ++ (if beIntSigned seq4 < 0 then []
                  else (synthesize_drain utf8Dec rest).1),
             if beIntSigned seq4 < 0 then false
             else (synthesize_drain utf8Dec rest).2))
    ∧ (∀ (utf8Dec : List Nat → Option (List Char)) (res : List Nat) (s : List Char)
       (rest : List TtsWsMsg),
      3 ≤ res.length → res.getD 1 0 >>> 4 = 0xf →
      ((if res.getD 2 0 &&& 0x0f = 1
          then gzipDecompress ((res.drop ((res.getD 0 0 &&& 0x0f) * 4)).drop 8)
          else some ((res.drop ((res.getD 0 0 &&& 0x0f) * 4)).drop 8)).bind utf8Dec)
        = some s →
      tts_parse_response utf8Dec res = some (none, true)
      ∧ synthesize_drain utf8Dec (TtsWsMsg.binary res :: rest) = ([], false))
    ∧ (∀ (utf8Dec : List Nat → Option (List Char)) (res : List Nat)
       (rest : List TtsWsMsg),
      3 ≤ res.length → res.getD 1 0 >>> 4 = 0xf →
      ((if res.getD 2 0 &&& 0x0f = 1
          then gzipDecompress ((res.drop ((res.getD 0 0 &&& 0x0f) * 4)).drop 8)
          else some ((res.drop ((res.getD 0 0 &&& 0x0f) * 4)).drop 8)).bind utf8Dec)
        = none →
      tts_parse_response utf8Dec res = none
      ∧ synthesize_drain utf8Dec (TtsWsMsg.binary res :: rest) = ([], true))
    ∧ (∀ (utf8Dec : List Nat → Option (List Char)) (res : List Nat)
       (rest : List TtsWsMsg),
      3 ≤ res.length → res.getD 1 0 >>> 4 = 0xc →
      tts_parse_response utf8Dec res = some (none, false)
      ∧ synthesize_drain utf8Dec (TtsWsMsg.binary res :: rest)
          = synthesize_drain utf8Dec rest)
    ∧ (∀ (utf8Dec : List Nat → Option (List Char)) (res : List Nat)
       (rest : List TtsWsMsg),
      3 ≤ res.length → res.getD 1 0 >>> 4 ≠ 0xb → res.getD 1 0 >>> 4 ≠ 0xf →
      res.getD 1 0 >>> 4 ≠ 0xc →
      tts_parse_response utf8Dec res = some (none, false)
      ∧ synthesize_drain utf8Dec (TtsWsMsg.binary res :: rest)
          = synthesize_drain utf8Dec rest) := by
  refine ⟨?_, ?_, ?_, ?_, ?_⟩
  · intro utf8Dec res seq4 size4 audio rest hmt hfl hpl hs4 hz4
    have hparse := tts_parse_audio_chunk utf8Dec res seq4 size4 audio hmt hfl hpl hs4 hz4
    refine ⟨hparse, ?_⟩
    rw [synthesize_drain_cons_ok utf8Dec res rest _ hparse]
    by_cases hnil : audio = [] <;> by_cases hneg : beIntSigned seq4 < 0 <;>
      simp [hnil, hneg]
  · intro utf8Dec res s rest hlen hmt hdec
    have hparse : tts_parse_response utf8Dec res = some (none, true) := by
      rw [tts_parse_error_frame utf8Dec res hmt, hdec]
    exact ⟨hparse, by rw [synthesize_drain_cons_ok utf8Dec res rest _ hparse]; simp⟩
  · intro utf8Dec res rest hlen hmt hdec
    have hparse : tts_parse_response utf8Dec res = none := by
      rw [tts_parse_error_frame utf8Dec res hmt, hdec]
    exact ⟨hparse, synthesize_drain_cons_exn utf8Dec res rest hparse⟩
  · intro utf8Dec res rest hlen hmt
    have hparse : tts_parse_response utf8Dec res = some (none, false) := by
      unfold tts_parse_response
      dsimp only
      rw [hmt]
      norm_num
    refine ⟨hparse, ?_⟩
    rw [synthesize_drain_cons_ok utf8Dec res rest _ hparse]
    simp
  · intro utf8Dec res rest hlen hb hf hc
    have hparse : tts_parse_response utf8Dec res = some (none, false) := by
      unfold tts_parse_response
      dsimp only
      rw [if_neg hb, if_neg hf, if_neg hc]
    refine ⟨hparse, ?_⟩
    rw [synthesize_drain_cons_ok utf8Dec res rest _ hparse]
    simp

/-- Witness for `tts_frame_dispatch`, under the UTF-8 decoder that maps
bytes to characters: five concrete frames — an audio chunk with a positive
sequence and two audio bytes, an error frame whose compressed payload
decodes (magic bytes then `A`), an error frame with an empty payload whose
decompression fails, a frontend-event frame, and a full-response frame
(type 1). -/
theorem tts_frame_dispatch_witness :
    (tts_parse_response (fun bs => some (bs.map Char.ofNat))
          ([0x11, 0xb1, 0x11, 0x00] ++ ([0, 0, 0, 5] ++ ([0, 0, 0, 2] ++ [9, 9])))
        = some (some [9, 9], decide (beIntSigned [0, 0, 0, 5] < 0))
      ∧ synthesize_drain (fun bs => some (bs.map Char.ofNat)) (TtsWsMsg.binary
            ([0x11, 0xb1, 0x11, 0x00] ++ ([0, 0, 0, 5] ++ ([0, 0, 0, 2] ++ [9, 9]))) :: [])
          = ((if ([9, 9] : List Nat) = [] then [] else [[9, 9]])
              ++ (if beIntSigned [0, 0, 0, 5] < 0 then []
                  else (synthesize_drain (fun bs => some (bs.map Char.ofNat)) []).1),
             if beIntSigned [0, 0, 0, 5] < 0 then false
             else (synthesize_drain (fun bs => some (bs.map Char.ofNat)) []).2))
    ∧ (tts_parse_response (fun bs => some (bs.map Char.ofNat))
          ([0x11, 0xf0, 0x11, 0x00] ++ ([0, 0, 0, 0, 0, 0, 0, 0] ++ [0x1f, 0x8b, 65]))
        = some (none, true)
      ∧ synthesize_drain (fun bs => some (bs.map Char.ofNat)) (TtsWsMsg.binary
            ([0x11, 0xf0, 0x11, 0x00] ++ ([0, 0, 0, 0, 0, 0, 0, 0] ++ [0x1f, 0x8b, 65])) :: [])
          = ([], false))
    ∧ (tts_parse_response (fun bs => some (bs.map Char.ofNat)) [0x11, 0xf0, 0x11, 0x00] = none
      ∧ synthesize_drain (fun bs => some (bs.map Char.ofNat))
          (TtsWsMsg.binary [0x11, 0xf0, 0x11, 0x00] :: []) = ([], true))
    ∧ (tts_parse_response (fun bs => some (bs.map Char.ofNat)) [0x11, 0xc0, 0x11, 0x00]
        = some (none, false)
      ∧ synthesize_drain (fun bs => some (bs.map Char.ofNat))
          (TtsWsMsg.binary [0x11, 0xc0, 0x11, 0x00] :: [])
          = synthesize_drain (fun bs => some (bs.map Char.ofNat)) [])
    ∧ (tts_parse_response (fun bs => some (bs.map Char.ofNat)) [0x11, 0x10, 0x11, 0x00]
        = some (none, false)
      ∧ synthesize_drain (fun bs => some (bs.map Char.ofNat))
          (TtsWsMsg.binary [0x11, 0x10, 0x11, 0x00] :: [])
          = synthesize_drain (fun bs => some (bs.map Char.ofNat)) []) :=
  ⟨tts_frame_dispatch.1 (fun bs => some (bs.map Char.ofNat)) _
      [0, 0, 0, 5] [0, 0, 0, 2] [9, 9] []
      (by decide) (by decide) (by decide) (by decide) (by decide),
   tts_frame_dispatch.2.1 (fun bs => some (bs.map Char.ofNat))
      ([0x11, 0xf0, 0x11, 0x00] ++ ([0, 0, 0, 0, 0, 0, 0, 0] ++ [0x1f, 0x8b, 65]))
      ([65].map Char.ofNat) [] (by decide) (by decide) (by decide),
   tts_frame_dispatch.2.2.1 (fun bs => some (bs.map Char.ofNat))
      [0x11, 0xf0, 0x11, 0x00] [] (by decide) (by decide) (by decide),
   tts_frame_dispatch.2.2.2.1 (fun bs => some (bs.map Char.ofNat))
      [0x11, 0xc0, 0x11, 0x00] [] (by decide) (by decide),
   tts_frame_dispatch.2.2.2.2 (fun bs => some (bs.map Char.ofNat))
      [0x11, 0x10, 0x11, 0x00] [] (by decide) (by decide) (by decide) (by decide)⟩

/-- C9: for an audio-chunk frame whose declared 4-byte size disagrees with
the number of bytes actually remaining after it, the parser returns the
actual remaining bytes unchanged — the declared size never truncates or pads
the yielded audio (it is only compared for a logged warning), and the drain
loop yields exactly those bytes (no exception is possible on this branch). -/
theorem declared_size_ignored (utf8Dec : List Nat → Option (List Char))
    (res seq4 size4 audio : List Nat) (rest : List TtsWsMsg)
    (hmt : res.getD 1 0 >>> 4 = 0xb)
    (hfl : res.getD 1 0 &&& 0x0f ≠ 0)
    (hpl : res.drop ((res.getD 0 0 &&& 0x0f) * 4) = seq4 ++ (size4 ++ audio))
    (hs4 : seq4.length = 4) (hz4 : size4.length = 4)
    (hmismatch : audio.length ≠ beNat size4) (hne : audio ≠ []) :
    tts_parse_response utf8Dec res = some (some audio, decide (beIntSigned seq4 < 0))
    ∧ ((synthesize_drain utf8Dec (TtsWsMsg.binary res :: rest)).1).take 1 = [audio] := by
  have hparse := tts_parse_audio_chunk utf8Dec res seq4 size4 audio hmt hfl hpl hs4 hz4
  refine ⟨hparse, ?_⟩
  rw [synthesize_drain_cons_ok utf8Dec res rest _ hparse]
  by_cases hneg : beIntSigned seq4 < 0 <;> simp [hne, hneg]

/-- Witness for `declared_size_ignored`: a frame declaring 99 audio bytes
but carrying a single byte `[7]`; the parser yields `[7]` unchanged. -/
theorem declared_size_ignored_witness :
    ([7] : List Nat).length ≠ beNat [0, 0, 0, 99] ∧
      (tts_parse_response (fun bs => some (bs.map Char.ofNat))
          ([0x11, 0xb1, 0x11, 0x00] ++ ([0, 0, 0, 5] ++ ([0, 0, 0, 99] ++ [7])))
        = some (some [7], decide (beIntSigned [0, 0, 0, 5] < 0))
      ∧ ((synthesize_drain (fun bs => some (bs.map Char.ofNat)) (TtsWsMsg.binary
          ([0x11, 0xb1, 0x11, 0x00] ++ ([0, 0, 0, 5] ++ ([0, 0, 0, 99] ++ [7]))) :: [])).1).take 1
        = [[7]]) :=
  ⟨by decide,
   declared_size_ignored (fun bs => some (bs.map Char.ofNat)) _
     [0, 0, 0, 5] [0, 0, 0, 99] [7] []
     (by decide) (by decide) (by decide) (by decide) (by decide) (by decide) (by decide)⟩

end Quzao
